import Mathlib

/-!
Shallow embedding of the blog content pipeline of this repository
(the module holding getAllSlugs, getPostBySlug, getAllPosts,
getAllPostsMeta, validateFrontmatter and markdownToHtml).

Modelling choices, each tied to a construct of the source:
* A content directory is a `ContentStore`: an existence flag (fs.existsSync
  on the blogs directory) plus the list of its files.  Each file carries its
  name, its frontmatter block as parsed by the gray-matter library, and its
  markdown body.
* Frontmatter values are dynamically typed in JS; `JSValue` covers the value
  shapes the pipeline inspects (string, number, boolean, null, string list),
  with JS truthiness made explicit in `JSValue.falsy`.
* `new Date(x).getTime()` is external library behaviour; it is abstracted as
  a parameter `jsDate : JSValue → Option Int` (`none` models NaN, i.e. an
  unparseable date).  Every theorem quantifies over it.
* The unified markdown-to-HTML chain (markdownToHtml) is likewise external;
  it is abstracted as a parameter `render : String → String`.
* Thrown JS errors become `Except.error` carrying the message string.
* `Array.prototype.sort` in Node is a stable sort driven by the comparator
  `(a, b) => dateB.getTime() - dateA.getTime()`; a stable sort by a total
  preorder has a unique result, so it is modelled by `List.insertionSort`
  with the relation "date of a is at least date of b".
-/

/-- Dynamic frontmatter values as the pipeline can observe them. -/
inductive JSValue where
  | vStr : String → JSValue
  | vNum : Int → JSValue
  | vBool : Bool → JSValue
  | vNull : JSValue
  | vStrList : List String → JSValue
deriving DecidableEq, Repr

/-- JS falsiness of a value: empty string, 0, false and null are falsy. -/
def JSValue.falsy : JSValue → Bool
  | .vStr s => s == ""
  | .vNum n => n == 0
  | .vBool b => !b
  | .vNull => true
  | .vStrList _ => false

/-- Truthiness of an optional field (a missing field, i.e. undefined, is falsy). -/
def truthyOpt : Option JSValue → Bool
  | none => false
  | some v => !v.falsy

/-- Models the JS check typeof x === "string" on an optional field. -/
def isStringOpt : Option JSValue → Bool
  | some (.vStr _) => true
  | _ => false

/-- String coercion used by JS template literals. -/
def jsDisplay : JSValue → String
  | .vStr s => s
  | .vNum n => toString n
  | .vBool b => if b then "true" else "false"
  | .vNull => "null"
  | .vStrList l => String.intercalate "," l

/-- Template-literal coercion of an optional field. -/
def jsDisplayOpt : Option JSValue → String
  | none => "undefined"
  | some v => jsDisplay v

/-- The getTime result of new Date(x) on an optional field (none = NaN). -/
def dateTimeOpt (jsDate : JSValue → Option Int) : Option JSValue → Option Int
  | none => none
  | some v => jsDate v

/-- The frontmatter keys the pipeline reads from the gray-matter data record. -/
structure Frontmatter where
  title : Option JSValue
  date : Option JSValue
  description : Option JSValue
  tags : Option JSValue
  published : Option JSValue
deriving DecidableEq, Repr

/-- One file of the content directory: its name, parsed frontmatter, body. -/
structure MdFile where
  name : String
  front : Frontmatter
  body : String
deriving DecidableEq, Repr

/-- The blogs directory:fs.existsSync flag plus directory contents. -/
structure ContentStore where
  dirExists : Bool
  files : List MdFile
deriving DecidableEq, Repr

/-- The BlogPost interface.  The TS as-casts keep the raw frontmatter values
at runtime, so title, description, date and tags hold the raw values. -/
structure BlogPost where
  slug : String
  title : Option JSValue
  description : Option JSValue
  date : Option JSValue
  tags : Option JSValue
  published : Bool
  content : String
  contentHtml : String
deriving DecidableEq, Repr

/-- The BlogPostMeta interface (no content, no contentHtml). -/
structure BlogPostMeta where
  slug : String
  title : Option JSValue
  description : Option JSValue
  date : Option JSValue
  tags : Option JSValue
deriving DecidableEq, Repr

/-- Path of the content directory (the process.cwd prefix is omitted). -/
def blogsDirectory : String := "blogs"

/-- The fatal validation errors collected by validateFrontmatter, in source
order: the title check, then the date checks. -/
def validationErrors (jsDate : JSValue → Option Int) (fm : Frontmatter) : List String :=
  (if !truthyOpt fm.title || !isStringOpt fm.title then
    ["Missing or invalid \x27title\x27 field"]
  else []) ++
  (if !truthyOpt fm.date then
    ["Missing \x27date\x27 field"]
  else if (dateTimeOpt jsDate fm.date).isNone then
    ["Invalid date format: " ++ jsDisplayOpt fm.date]
  else [])

/-- The non-fatal warnings logged by validateFrontmatter. -/
def validationWarnings (fm : Frontmatter) : List String :=
  if !truthyOpt fm.description then
    ["Missing \x27description\x27 field (recommended for SEO)"]
  else []

/-- The message of the thrown validation error. -/
def validationMessage (slug : String) (errors : List String) : String :=
  "[blogs/" ++ slug ++ ".md] Validation failed:\n  - " ++
    String.intercalate "\n  - " errors

/-- validateFrontmatter: throws when any fatal error was collected. -/
def validateFrontmatter (jsDate : JSValue → Option Int) (fm : Frontmatter)
    (slug : String) : Except String Unit :=
  if (validationErrors jsDate fm).isEmpty then Except.ok ()
  else Except.error (validationMessage slug (validationErrors jsDate fm))

/-- Reduceable model of String.endsWith (the built-in blocks kernel
evaluation): a string ends with p exactly when restoring p after dropping
its length gives the string back. -/
def strEndsWith (s p : String) : Bool :=
  s.dropRight p.length ++ p == s

/-- The slug list derived from the directory listing: keep names ending in
.md, strip that extension (the regex replace of a final .md). -/
def derivedSlugs (store : ContentStore) : List String :=
  ((store.files.map MdFile.name).filter (fun n => strEndsWith n ".md")).map
    (fun n => n.dropRight 3)

/-- The duplicate scan over the slug list with its seen set. -/
def findDup : List String → List String → Option String
  | [], _ => none
  | s :: rest, seen => if s ∈ seen then some s else findDup rest (s :: seen)

/-- The warning logged when the blogs directory does not exist. -/
def missingDirWarning (store : ContentStore) : List String :=
  if store.dirExists then [] else ["Blogs directory not found: " ++ blogsDirectory]

/-- getAllSlugs: empty on a missing directory, otherwise the derived slugs,
with a thrown error on a duplicate slug. -/
def getAllSlugs (store : ContentStore) : Except String (List String) :=
  if !store.dirExists then Except.ok []
  else
    match findDup (derivedSlugs store) [] with
    | some s => Except.error ("Duplicate slug detected: " ++ s)
    | none => Except.ok (derivedSlugs store)

/-- File lookup of getPostBySlug: the file named slug + ".md". -/
def findFile (store : ContentStore) (slug : String) : Option MdFile :=
  store.files.find? (fun f => f.name == slug ++ ".md")

/-- The BlogPost object literal built at the end of getPostBySlug.  The
published field is data.published !== false (defaulting to true). -/
def mkBlogPost (render : String → String) (slug : String) (file : MdFile) : BlogPost :=
  { slug := slug
    title := file.front.title
    description := file.front.description
    date := file.front.date
    tags := file.front.tags
    published := decide (file.front.published ≠ some (JSValue.vBool false))
    content := file.body
    contentHtml := render file.body }

/-- getPostBySlug: null when the file is absent, else validate and build. -/
def getPostBySlug (jsDate : JSValue → Option Int) (render : String → String)
    (store : ContentStore) (slug : String) : Except String (Option BlogPost) :=
  match findFile store slug with
  | none => Except.ok none
  | some file =>
    match validateFrontmatter jsDate file.front slug with
    | Except.error e => Except.error e
    | Except.ok _ => Except.ok (some (mkBlogPost render slug file))

/-- The loop of getAllPosts: load each slug in order, keep the published
posts, abort on the first thrown error. -/
def collectPosts (jsDate : JSValue → Option Int) (render : String → String)
    (store : ContentStore) : List String → Except String (List BlogPost)
  | [] => Except.ok []
  | slug :: rest =>
    match getPostBySlug jsDate render store slug with
    | Except.error e => Except.error e
    | Except.ok none => collectPosts jsDate render store rest
    | Except.ok (some p) =>
      match collectPosts jsDate render store rest with
      | Except.error e => Except.error e
      | Except.ok tail => Except.ok (if p.published then p :: tail else tail)

/-- Sort key of the comparator: new Date(post.date).getTime(). -/
def postTime (jsDate : JSValue → Option Int) (p : BlogPost) : Int :=
  (dateTimeOpt jsDate p.date).getD 0

/-- The sort order of getAllPosts: a comes before b when the date of a is at
least the date of b (comparator dateB - dateA). -/
def postDateGe (jsDate : JSValue → Option Int) (a b : BlogPost) : Prop :=
  postTime jsDate b ≤ postTime jsDate a

instance postDateGeDec (jsDate : JSValue → Option Int) : DecidableRel (postDateGe jsDate) :=
  fun a b => inferInstanceAs (Decidable (postTime jsDate b ≤ postTime jsDate a))

/-- getAllPosts: slugs, then the loading loop, then the stable date sort. -/
def getAllPosts (jsDate : JSValue → Option Int) (render : String → String)
    (store : ContentStore) : Except String (List BlogPost) :=
  match getAllSlugs store with
  | Except.error e => Except.error e
  | Except.ok slugs =>
    match collectPosts jsDate render store slugs with
    | Except.error e => Except.error e
    | Except.ok posts => Except.ok (List.insertionSort (postDateGe jsDate) posts)

/-- The projection of the getAllPostsMeta map callback. -/
def postToMeta (p : BlogPost) : BlogPostMeta :=
  { slug := p.slug
    title := p.title
    description := p.description
    date := p.date
    tags := p.tags }

/-- getAllPostsMeta: getAllPosts with each post projected to its metadata. -/
def getAllPostsMeta (jsDate : JSValue → Option Int) (render : String → String)
    (store : ContentStore) : Except String (List BlogPostMeta) :=
  match getAllPosts jsDate render store with
  | Except.error e => Except.error e
  | Except.ok posts => Except.ok (posts.map postToMeta)

/-!
Sample environment used by the witnesses: a concrete render function, a
concrete date parser (a finite table standing in for the JS Date parser on
the strings the samples use), and concrete content stores.
-/

/-- Sample markdown renderer for witnesses. -/
def sampleRender (md : String) : String := "<html>" ++ md ++ "</html>"

/-- Sample date parser for witnesses: a finite table on the date strings the
sample stores use, together with the JS number and boolean coercions. -/
def sampleDate : JSValue → Option Int
  | JSValue.vStr "2026-02-01" => some 1769904000000
  | JSValue.vStr "2026-01-17" => some 1768608000000
  | JSValue.vStr "2025-12-31" => some 1767139200000
  | JSValue.vStr _ => none
  | JSValue.vNum n => some n
  | JSValue.vBool true => some 1
  | JSValue.vBool false => some 0
  | JSValue.vNull => some 0
  | JSValue.vStrList _ => none

/-- Valid frontmatter, no published key (defaults to published). -/
def goodFront1 : Frontmatter :=
  { title := some (JSValue.vStr "Post One")
    date := some (JSValue.vStr "2026-02-01")
    description := some (JSValue.vStr "first post")
    tags := some (JSValue.vStrList ["a", "b"])
    published := none }

/-- Valid frontmatter, published: true, no description. -/
def goodFront2 : Frontmatter :=
  { title := some (JSValue.vStr "Post Two")
    date := some (JSValue.vStr "2026-01-17")
    description := none
    tags := none
    published := some (JSValue.vBool true) }

/-- Valid frontmatter with published: false. -/
def hiddenFront : Frontmatter :=
  { title := some (JSValue.vStr "Hidden")
    date := some (JSValue.vStr "2025-12-31")
    description := some (JSValue.vStr "unpublished")
    tags := none
    published := some (JSValue.vBool false) }

/-- Invalid frontmatter: no title; also marked published: false. -/
def badFront : Frontmatter :=
  { title := none
    date := some (JSValue.vStr "2026-01-17")
    description := none
    tags := none
    published := some (JSValue.vBool false) }

/-- Frontmatter whose title and date are present but empty strings. -/
def emptyTitleFront : Frontmatter :=
  { title := some (JSValue.vStr "")
    date := some (JSValue.vStr "")
    description := none
    tags := none
    published := none }

def oneFile : MdFile := { name := "one.md", front := goodFront1, body := "# One" }

def twoFile : MdFile := { name := "two.md", front := goodFront2, body := "# Two" }

def hiddenFile : MdFile := { name := "hidden.md", front := hiddenFront, body := "# Hidden" }

/-- A non-markdown directory entry, ignored by the slug derivation. -/
def txtFile : MdFile := { name := "notes.txt", front := goodFront1, body := "notes" }

/-- A store of three valid posts (one unpublished) and one non-md file. -/
def sampleStore : ContentStore :=
  { dirExists := true, files := [twoFile, oneFile, hiddenFile, txtFile] }

def badFile : MdFile := { name := "bad.md", front := badFront, body := "broken" }

/-- A store holding one valid post and one post failing validation. -/
def badStore : ContentStore := { dirExists := true, files := [twoFile, badFile] }

def caseFileA : MdFile := { name := "Intro.md", front := goodFront1, body := "# Cap" }

def caseFileB : MdFile := { name := "intro.md", front := goodFront2, body := "# Low" }

/-- Two valid files whose names differ only by letter case. -/
def caseStore : ContentStore := { dirExists := true, files := [caseFileA, caseFileB] }

def dupFileA : MdFile := { name := "intro.md", front := goodFront1, body := "# A" }

def dupFileB : MdFile := { name := "intro.md", front := goodFront2, body := "# B" }

/-- A degenerate listing with the same file name twice: the only way two
entries can derive the same slug, since slug derivation is injective on
names ending in .md. -/
def dupStore : ContentStore := { dirExists := true, files := [dupFileA, dupFileB] }

/-- A file in another store with the same markdown body as twoFile. -/
def otherFile : MdFile := { name := "other.md", front := goodFront1, body := "# Two" }

def altStore : ContentStore := { dirExists := true, files := [otherFile] }

/-- A store whose directory does not exist. -/
def noDirStore : ContentStore := { dirExists := false, files := [] }

def emptyTitleFile : MdFile :=
  { name := "intro.md", front := emptyTitleFront, body := "hello" }

def emptyTitleStore : ContentStore := { dirExists := true, files := [emptyTitleFile] }
/-- Inversion of a successful getPostBySlug: the file was found, its
frontmatter validated, and the post is the object literal built from it. -/
theorem getPostBySlug_ok_inv (jsDate : JSValue → Option Int) (render : String → String)
    (store : ContentStore) (slug : String) (p : BlogPost)
    (h : getPostBySlug jsDate render store slug = Except.ok (some p)) :
    ∃ f, findFile store slug = some f ∧
      validateFrontmatter jsDate f.front slug = Except.ok () ∧
      p = mkBlogPost render slug f := by
  unfold getPostBySlug at h
  split at h
  · simp at h
  · rename_i f hf
    split at h
    · exact Except.noConfusion h
    · rename_i u hv
      injection h with h
      injection h with h
      exact ⟨f, hf, by cases u; exact hv, h.symm⟩

/-- Every post collected by the getAllPosts loop has published = true. -/
theorem mem_collectPosts_published (jsDate : JSValue → Option Int) (render : String → String)
    (store : ContentStore) :
    ∀ (slugs : List String) (posts : List BlogPost),
      collectPosts jsDate render store slugs = Except.ok posts →
      ∀ p ∈ posts, p.published = true := by
  intro slugs
  induction slugs with
  | nil =>
    intro posts h p hp
    unfold collectPosts at h
    injection h with h
    subst h
    simp at hp
  | cons s rest ih =>
    intro posts h p hp
    unfold collectPosts at h
    split at h
    · exact Except.noConfusion h
    · exact ih posts h p hp
    · rename_i q hq
      split at h
      · exact Except.noConfusion h
      · rename_i tail htail
        injection h with h
        subst h
        by_cases hpub : q.published = true
        · rw [if_pos hpub] at hp
          rcases List.mem_cons.mp hp with h1 | h1
          · rw [h1]; exact hpub
          · exact ih tail htail p h1
        · rw [if_neg hpub] at hp
          exact ih tail htail p hp

/-- A published post loaded from a listed slug is collected by the loop. -/
theorem collectPosts_mem (jsDate : JSValue → Option Int) (render : String → String)
    (store : ContentStore) :
    ∀ (slugs : List String) (slug : String) (p : BlogPost) (posts : List BlogPost),
      slug ∈ slugs →
      getPostBySlug jsDate render store slug = Except.ok (some p) →
      p.published = true →
      collectPosts jsDate render store slugs = Except.ok posts →
      p ∈ posts := by
  intro slugs
  induction slugs with
  | nil => intro slug p posts hmem; exact absurd hmem (List.not_mem_nil slug)
  | cons s rest ih =>
    intro slug p posts hmem hpost hpub hcol
    unfold collectPosts at hcol
    rcases List.mem_cons.mp hmem with heq | hmemr
    · subst heq
      rw [hpost] at hcol
      split at hcol
      · rename_i heq2
        exact Except.noConfusion heq2
      · rename_i heq2
        injection heq2 with heq2
        exact Option.noConfusion heq2
      · rename_i q heq2
        injection heq2 with heq2
        injection heq2 with heq2
        subst heq2
        split at hcol
        · exact Except.noConfusion hcol
        · rename_i tail htail
          injection hcol with hcol
          subst hcol
          rw [if_pos hpub]
          exact List.mem_cons_self p tail
    · split at hcol
      · exact Except.noConfusion hcol
      · exact ih slug p posts hmemr hpost hpub hcol
      · rename_i q hq
        split at hcol
        · exact Except.noConfusion hcol
        · rename_i tail htail
          injection hcol with hcol
          subst hcol
          have hin : p ∈ tail := ih slug p tail hmemr hpost hpub htail
          by_cases hqp : q.published = true
          · rw [if_pos hqp]; exact List.mem_cons_of_mem q hin
          · rw [if_neg hqp]; exact hin

/-- If some listed slug fails to load, the loop aborts with the error of a
failing slug. -/
theorem collectPosts_error (jsDate : JSValue → Option Int) (render : String → String)
    (store : ContentStore) :
    ∀ (slugs : List String) (slug : String) (e : String),
      slug ∈ slugs →
      getPostBySlug jsDate render store slug = Except.error e →
      ∃ s2 e2, s2 ∈ slugs ∧ getPostBySlug jsDate render store s2 = Except.error e2 ∧
        collectPosts jsDate render store slugs = Except.error e2 := by
  intro slugs
  induction slugs with
  | nil => intro slug e hmem; exact absurd hmem (List.not_mem_nil slug)
  | cons s rest ih =>
    intro slug e hmem herr
    cases hs : getPostBySlug jsDate render store s with
    | error e1 =>
      refine ⟨s, e1, List.mem_cons_self s rest, hs, ?_⟩
      unfold collectPosts
      rw [hs]
    | ok v =>
      have hmemr : slug ∈ rest := by
        rcases List.mem_cons.mp hmem with heq | hmemr
        · subst heq; rw [herr] at hs; exact Except.noConfusion hs
        · exact hmemr
      obtain ⟨s2, e2, hm2, hp2, hc2⟩ := ih slug e hmemr herr
      refine ⟨s2, e2, List.mem_cons_of_mem s hm2, hp2, ?_⟩
      unfold collectPosts
      rw [hs]
      cases v with
      | none => exact hc2
      | some q => rw [hc2]

/-- The duplicate scan returns none exactly when the list has no duplicate
and avoids the seen set. -/
theorem findDup_eq_none_iff :
    ∀ (l seen : List String), findDup l seen = none ↔ l.Nodup ∧ ∀ x ∈ l, x ∉ seen := by
  intro l
  induction l with
  | nil => intro seen; simp [findDup]
  | cons s rest ih =>
    intro seen
    unfold findDup
    by_cases hs : s ∈ seen
    · rw [if_pos hs]
      constructor
      · intro h; exact Option.noConfusion h
      · rintro ⟨-, hall⟩
        exact absurd hs (hall s (List.mem_cons_self s rest))
    · rw [if_neg hs, ih (s :: seen)]
      constructor
      · rintro ⟨hnd, hall⟩
        refine ⟨List.nodup_cons.mpr ⟨fun hin => ?_, hnd⟩, ?_⟩
        · exact (hall s hin) (List.mem_cons_self s seen)
        · intro x hx
          rcases List.mem_cons.mp hx with heq | hxr
          · rw [heq]; exact hs
          · exact fun hxs => (hall x hxr) (List.mem_cons_of_mem s hxs)
      · rintro ⟨hnd, hall⟩
        obtain ⟨hsr, hndr⟩ := List.nodup_cons.mp hnd
        refine ⟨hndr, fun x hx hxs => ?_⟩
        rcases List.mem_cons.mp hxs with heq | hxseen
        · rw [heq] at hx; exact hsr hx
        · exact (hall x (List.mem_cons_of_mem s hx)) hxseen

/-- With a nonempty fatal-error list, getPostBySlug throws the validation
message. -/
theorem getPostBySlug_validation_error (jsDate : JSValue → Option Int)
    (render : String → String) (store : ContentStore) (slug : String) (f : MdFile)
    (hf : findFile store slug = some f)
    (hne : validationErrors jsDate f.front ≠ []) :
    getPostBySlug jsDate render store slug =
      Except.error (validationMessage slug (validationErrors jsDate f.front)) := by
  have hv : validateFrontmatter jsDate f.front slug =
      Except.error (validationMessage slug (validationErrors jsDate f.front)) := by
    unfold validateFrontmatter
    rw [if_neg]
    intro habs
    exact hne (List.isEmpty_iff.mp habs)
  simp only [getPostBySlug, hf, hv]

/-- With no fatal errors, getPostBySlug returns the built post. -/
theorem getPostBySlug_validation_ok (jsDate : JSValue → Option Int)
    (render : String → String) (store : ContentStore) (slug : String) (f : MdFile)
    (hf : findFile store slug = some f)
    (hz : validationErrors jsDate f.front = []) :
    getPostBySlug jsDate render store slug =
      Except.ok (some (mkBlogPost render slug f)) := by
  have hv : validateFrontmatter jsDate f.front slug = Except.ok () := by
    unfold validateFrontmatter
    rw [hz]
    rfl
  simp only [getPostBySlug, hf, hv]

/-- C2: whenever getAllPosts succeeds, adjacent posts of its result are in
descending order of parsed date: the date of each post is at least the date
of the next one. -/
theorem getAllPosts_sorted_by_date (jsDate : JSValue → Option Int)
    (render : String → String) (store : ContentStore) (l : List BlogPost)
    (h : getAllPosts jsDate render store = Except.ok l) :
    List.Chain' (postDateGe jsDate) l := by
  unfold getAllPosts at h
  split at h
  · exact Except.noConfusion h
  · split at h
    · exact Except.noConfusion h
    · rename_i posts hposts
      injection h with h
      subst h
      haveI : IsTotal BlogPost (postDateGe jsDate) :=
        ⟨fun a b => Int.le_total (postTime jsDate b) (postTime jsDate a)⟩
      haveI : IsTrans BlogPost (postDateGe jsDate) :=
        ⟨fun _ _ _ h1 h2 => le_trans h2 h1⟩
      exact List.Pairwise.chain' (List.sorted_insertionSort (postDateGe jsDate) posts)

/-- C3: a loadable post is included in the getAllPosts result exactly when
its frontmatter published value is not the boolean false (absence and any
non-false value default to published), and a post is returned by direct
getPostBySlug lookup regardless of its published value, so a post with
published: false is still retrievable. -/
theorem getAllPosts_published_iff (jsDate : JSValue → Option Int)
    (render : String → String) (store : ContentStore) (slugs : List String)
    (slug : String) (f : MdFile) (l : List BlogPost)
    (hs : getAllSlugs store = Except.ok slugs)
    (hmem : slug ∈ slugs)
    (hf : findFile store slug = some f)
    (hv : validateFrontmatter jsDate f.front slug = Except.ok ())
    (hl : getAllPosts jsDate render store = Except.ok l) :
    getPostBySlug jsDate render store slug = Except.ok (some (mkBlogPost render slug f)) ∧
    (mkBlogPost render slug f).published =
      decide (f.front.published ≠ some (JSValue.vBool false)) ∧
    ((mkBlogPost render slug f) ∈ l ↔ f.front.published ≠ some (JSValue.vBool false)) := by
  have hpost : getPostBySlug jsDate render store slug =
      Except.ok (some (mkBlogPost render slug f)) := by
    simp only [getPostBySlug, hf, hv]
  refine ⟨hpost, rfl, ?_⟩
  unfold getAllPosts at hl
  split at hl
  · exact Except.noConfusion hl
  · rename_i slugs2 hs2
    rw [hs] at hs2
    injection hs2 with hs2
    subst hs2
    split at hl
    · exact Except.noConfusion hl
    · rename_i posts hcol
      injection hl with hl
      subst hl
      have hperm := List.perm_insertionSort (postDateGe jsDate) posts
      constructor
      · intro hin
        have hinp : mkBlogPost render slug f ∈ posts := hperm.mem_iff.mp hin
        have hpub := mem_collectPosts_published jsDate render store slugs posts hcol _ hinp
        exact of_decide_eq_true hpub
      · intro hne
        have hpub : (mkBlogPost render slug f).published = true := decide_eq_true hne
        exact hperm.mem_iff.mpr
          (collectPosts_mem jsDate render store slugs slug _ posts hmem hpost hpub hcol)

/-- C5: if any listed slug fails fatal validation, getAllPosts and
getAllPostsMeta fail with the error of a failing post and return no posts
at all; nothing restricts the published value of the failing post. -/
theorem getAllPosts_abort_on_error (jsDate : JSValue → Option Int)
    (render : String → String) (store : ContentStore) (slugs : List String)
    (slug : String) (e : String)
    (hs : getAllSlugs store = Except.ok slugs)
    (hmem : slug ∈ slugs)
    (he : getPostBySlug jsDate render store slug = Except.error e) :
    ∃ s2 e2, s2 ∈ slugs ∧ getPostBySlug jsDate render store s2 = Except.error e2 ∧
      getAllPosts jsDate render store = Except.error e2 ∧
      getAllPostsMeta jsDate render store = Except.error e2 := by
  obtain ⟨s2, e2, hm2, hp2, hc2⟩ :=
    collectPosts_error jsDate render store slugs slug e hmem he
  have hall : getAllPosts jsDate render store = Except.error e2 := by
    simp only [getAllPosts, hs, hc2]
  exact ⟨s2, e2, hm2, hp2, hall, by simp only [getAllPostsMeta, hall]⟩

/-- C6: a slug with no corresponding markdown file makes getPostBySlug
return the explicit absence value Except.ok none, not an error. -/
theorem getPostBySlug_absent (jsDate : JSValue → Option Int) (render : String → String)
    (store : ContentStore) (slug : String)
    (h : ∀ f ∈ store.files, f.name ≠ slug ++ ".md") :
    getPostBySlug jsDate render store slug = Except.ok none := by
  have hf : findFile store slug = none := by
    unfold findFile
    rw [List.find?_eq_none]
    intro f hfm
    simp only [beq_iff_eq]
    exact h f hfm
  simp only [getPostBySlug, hf]

/-- C7: when the content directory does not exist, getAllSlugs, getAllPosts
and getAllPostsMeta all return empty lists without raising an error, and
the directory warning is logged. -/
theorem missing_dir_zero_posts (jsDate : JSValue → Option Int)
    (render : String → String) (store : ContentStore)
    (h : store.dirExists = false) :
    getAllSlugs store = Except.ok [] ∧
    getAllPosts jsDate render store = Except.ok [] ∧
    getAllPostsMeta jsDate render store = Except.ok [] ∧
    missingDirWarning store = ["Blogs directory not found: " ++ blogsDirectory] := by
  have h1 : getAllSlugs store = Except.ok [] := by
    unfold getAllSlugs
    rw [h]
    rfl
  refine ⟨h1, ?_, ?_, ?_⟩
  · simp only [getAllPosts, h1, collectPosts]
    rfl
  · simp only [getAllPostsMeta, getAllPosts, h1, collectPosts]
    rfl
  · unfold missingDirWarning
    rw [h]
    rfl

/-- C8: getAllPostsMeta is getAllPosts with each post projected to its
slug, title, description, date and tags, in the same order and count; the
projection preserves those five fields and its type omits the raw and
rendered bodies. -/
theorem getAllPostsMeta_projection (jsDate : JSValue → Option Int)
    (render : String → String) (store : ContentStore) (l : List BlogPost)
    (h : getAllPosts jsDate render store = Except.ok l) :
    getAllPostsMeta jsDate render store = Except.ok (l.map postToMeta) ∧
    ∀ p : BlogPost, (postToMeta p).slug = p.slug ∧ (postToMeta p).title = p.title ∧
      (postToMeta p).description = p.description ∧ (postToMeta p).date = p.date ∧
      (postToMeta p).tags = p.tags := by
  exact ⟨by simp only [getAllPostsMeta, h], fun p => ⟨rfl, rfl, rfl, rfl, rfl⟩⟩

/-- C9: the rendered HTML of a loaded post is a function of its markdown
content alone: two loads through the same rendering chain, from any stores,
slugs and date parsers, yield equal HTML whenever the markdown is equal. -/
theorem contentHtml_from_content (jsDate1 jsDate2 : JSValue → Option Int)
    (render : String → String) (s1 s2 : ContentStore) (a b : String)
    (p q : BlogPost)
    (h1 : getPostBySlug jsDate1 render s1 a = Except.ok (some p))
    (h2 : getPostBySlug jsDate2 render s2 b = Except.ok (some q))
    (hc : p.content = q.content) :
    p.contentHtml = q.contentHtml := by
  obtain ⟨f1, -, -, hp⟩ := getPostBySlug_ok_inv jsDate1 render s1 a p h1
  obtain ⟨f2, -, -, hq⟩ := getPostBySlug_ok_inv jsDate2 render s2 b q h2
  subst hp
  subst hq
  exact congrArg render hc

/-- C4: for an existing content file, load fails with a validation error
naming the field when the title is missing or not a string, when the date
is missing, or when the date string does not parse; a missing description
alone never causes failure: the post still loads and only a warning is
collected for the log. -/
theorem validateFrontmatter_policy (jsDate : JSValue → Option Int)
    (render : String → String) (store : ContentStore) (slug : String) (f : MdFile)
    (hf : findFile store slug = some f) :
    (isStringOpt f.front.title = false →
      "Missing or invalid \x27title\x27 field" ∈ validationErrors jsDate f.front ∧
      getPostBySlug jsDate render store slug =
        Except.error (validationMessage slug (validationErrors jsDate f.front))) ∧
    (f.front.date = none →
      "Missing \x27date\x27 field" ∈ validationErrors jsDate f.front ∧
      getPostBySlug jsDate render store slug =
        Except.error (validationMessage slug (validationErrors jsDate f.front))) ∧
    (∀ s : String, f.front.date = some (JSValue.vStr s) → s ≠ "" →
      jsDate (JSValue.vStr s) = none →
      ("Invalid date format: " ++ s) ∈ validationErrors jsDate f.front ∧
      getPostBySlug jsDate render store slug =
        Except.error (validationMessage slug (validationErrors jsDate f.front))) ∧
    ((truthyOpt f.front.title && isStringOpt f.front.title) = true →
      truthyOpt f.front.date = true →
      (dateTimeOpt jsDate f.front.date).isSome = true →
      f.front.description = none →
      "Missing \x27description\x27 field (recommended for SEO)" ∈ validationWarnings f.front ∧
      getPostBySlug jsDate render store slug =
        Except.ok (some (mkBlogPost render slug f))) := by
  refine ⟨?_, ?_, ?_, ?_⟩
  · intro h1
    have hcond : (!truthyOpt f.front.title || !isStringOpt f.front.title) = true := by
      rw [h1]; simp
    have herr : ∃ rest, validationErrors jsDate f.front =
        "Missing or invalid \x27title\x27 field" :: rest := by
      unfold validationErrors
      rw [if_pos hcond]
      exact ⟨_, rfl⟩
    obtain ⟨rest, herr⟩ := herr
    refine ⟨by rw [herr]; exact List.mem_cons_self _ _, ?_⟩
    exact getPostBySlug_validation_error jsDate render store slug f hf (by rw [herr]; simp)
  · intro h2
    have hform : validationErrors jsDate f.front =
        (if !truthyOpt f.front.title || !isStringOpt f.front.title then
          ["Missing or invalid \x27title\x27 field"] else []) ++
        ["Missing \x27date\x27 field"] := by
      unfold validationErrors
      rw [h2]
      rfl
    refine ⟨by rw [hform]; exact List.mem_append_right _ (List.mem_singleton.mpr rfl), ?_⟩
    exact getPostBySlug_validation_error jsDate render store slug f hf (by rw [hform]; simp)
  · intro s hd hs hp
    have hbe : (s == "") = false := beq_eq_false_iff_ne.mpr hs
    have h2nd : (if !truthyOpt f.front.date then ["Missing \x27date\x27 field"]
        else if (dateTimeOpt jsDate f.front.date).isNone then
          ["Invalid date format: " ++ jsDisplayOpt f.front.date]
        else []) = ["Invalid date format: " ++ s] := by
      rw [hd]
      have htr : truthyOpt (some (JSValue.vStr s)) = true := by
        simp [truthyOpt, JSValue.falsy, hbe]
      rw [htr]
      have hdt : dateTimeOpt jsDate (some (JSValue.vStr s)) = none := hp
      rw [hdt]
      rfl
    have hform : validationErrors jsDate f.front =
        (if !truthyOpt f.front.title || !isStringOpt f.front.title then
          ["Missing or invalid \x27title\x27 field"] else []) ++
        ["Invalid date format: " ++ s] := by
      unfold validationErrors
      rw [h2nd]
    refine ⟨by rw [hform]; exact List.mem_append_right _ (List.mem_singleton.mpr rfl), ?_⟩
    exact getPostBySlug_validation_error jsDate render store slug f hf (by rw [hform]; simp)
  · intro htt htd hds hdesc
    obtain ⟨ht1, ht2⟩ := Bool.and_eq_true_iff.mp htt
    have hn : (dateTimeOpt jsDate f.front.date).isNone = false := by
      cases hopt : dateTimeOpt jsDate f.front.date with
      | none => rw [hopt] at hds; exact absurd hds (by simp)
      | some t => rfl
    have hz : validationErrors jsDate f.front = [] := by
      unfold validationErrors
      rw [ht1, ht2, htd, hn]
      rfl
    refine ⟨?_, getPostBySlug_validation_ok jsDate render store slug f hf hz⟩
    unfold validationWarnings
    rw [hdesc]
    exact List.mem_singleton.mpr rfl

/-- C10: a title that is present but the empty string fails the
falsiness-based required-field check exactly like an absent title,
producing the missing-or-invalid-title error; likewise an empty-string
date produces the missing-date error. -/
theorem empty_title_fatal (jsDate : JSValue → Option Int) (render : String → String)
    (store : ContentStore) (slug : String) (f : MdFile)
    (hf : findFile store slug = some f)
    (ht : f.front.title = some (JSValue.vStr "")) :
    "Missing or invalid \x27title\x27 field" ∈ validationErrors jsDate f.front ∧
    getPostBySlug jsDate render store slug =
      Except.error (validationMessage slug (validationErrors jsDate f.front)) ∧
    (f.front.date = some (JSValue.vStr "") →
      "Missing \x27date\x27 field" ∈ validationErrors jsDate f.front) := by
  have hcond : (!truthyOpt f.front.title || !isStringOpt f.front.title) = true := by
    rw [ht]; rfl
  have herr : ∃ rest, validationErrors jsDate f.front =
      "Missing or invalid \x27title\x27 field" :: rest := by
    unfold validationErrors
    rw [if_pos hcond]
    exact ⟨_, rfl⟩
  obtain ⟨rest, herr⟩ := herr
  refine ⟨by rw [herr]; exact List.mem_cons_self _ _, ?_, ?_⟩
  · exact getPostBySlug_validation_error jsDate render store slug f hf (by rw [herr]; simp)
  · intro hd
    have hform : validationErrors jsDate f.front =
        (if !truthyOpt f.front.title || !isStringOpt f.front.title then
          ["Missing or invalid \x27title\x27 field"] else []) ++
        ["Missing \x27date\x27 field"] := by
      unfold validationErrors
      rw [hd]
      rfl
    rw [hform]
    exact List.mem_append_right _ (List.mem_singleton.mpr rfl)

/-- C1 (amended): if two entries of the directory listing derive the same
slug (possible only for identical name strings, since slug derivation just
strips a final .md and performs no case folding), getAllSlugs raises the
fatal duplicate-slug error and getAllPosts and getAllPostsMeta return no
posts. -/
theorem dup_slug_fatal (jsDate : JSValue → Option Int) (render : String → String)
    (store : ContentStore)
    (hdir : store.dirExists = true)
    (hdup : ¬ (derivedSlugs store).Nodup) :
    ∃ s, getAllSlugs store = Except.error ("Duplicate slug detected: " ++ s) ∧
      getAllPosts jsDate render store = Except.error ("Duplicate slug detected: " ++ s) ∧
      getAllPostsMeta jsDate render store =
        Except.error ("Duplicate slug detected: " ++ s) := by
  have hne : findDup (derivedSlugs store) [] ≠ none := by
    intro h
    exact hdup ((findDup_eq_none_iff (derivedSlugs store) []).mp h).1
  obtain ⟨s, hs⟩ := Option.ne_none_iff_exists'.mp hne
  have h1 : getAllSlugs store = Except.error ("Duplicate slug detected: " ++ s) := by
    unfold getAllSlugs
    rw [hdir, hs]
    rfl
  refine ⟨s, h1, ?_, ?_⟩
  · simp only [getAllPosts, h1]
  · simp only [getAllPostsMeta, getAllPosts, h1]

/-- C1 counterexample: two files whose names differ only by letter case and
whose base name is intro are NOT rejected by the duplicate-slug check: slug
derivation performs no case folding, so getAllSlugs returns the two distinct
slugs Intro and intro and getAllPosts returns both posts. -/
theorem dup_slug_case_counterexample :
    getAllSlugs caseStore = Except.ok ["Intro", "intro"] ∧
    getAllPosts sampleDate sampleRender caseStore =
      Except.ok [mkBlogPost sampleRender "Intro" caseFileA,
        mkBlogPost sampleRender "intro" caseFileB] :=
  ⟨rfl, rfl⟩

/-- Witness for C1 (amended) at a listing holding the name intro.md twice. -/
theorem dup_slug_fatal_witness :
    ∃ s, getAllSlugs dupStore = Except.error ("Duplicate slug detected: " ++ s) ∧
      getAllPosts sampleDate sampleRender dupStore =
        Except.error ("Duplicate slug detected: " ++ s) ∧
      getAllPostsMeta sampleDate sampleRender dupStore =
        Except.error ("Duplicate slug detected: " ++ s) :=
  dup_slug_fatal sampleDate sampleRender dupStore rfl (by decide)

/-- Witness for C2 at the sample store: its two published posts come out in
descending date order. -/
theorem getAllPosts_sorted_by_date_witness :
    List.Chain' (postDateGe sampleDate)
      [mkBlogPost sampleRender "one" oneFile, mkBlogPost sampleRender "two" twoFile] :=
  getAllPosts_sorted_by_date sampleDate sampleRender sampleStore
    [mkBlogPost sampleRender "one" oneFile, mkBlogPost sampleRender "two" twoFile] rfl

/-- Witness for C3 at the unpublished sample post: it is retrievable by
direct lookup yet excluded from the listing. -/
theorem getAllPosts_published_iff_witness :
    getPostBySlug sampleDate sampleRender sampleStore "hidden" =
      Except.ok (some (mkBlogPost sampleRender "hidden" hiddenFile)) ∧
    (mkBlogPost sampleRender "hidden" hiddenFile).published =
      decide (hiddenFile.front.published ≠ some (JSValue.vBool false)) ∧
    (mkBlogPost sampleRender "hidden" hiddenFile ∈
        [mkBlogPost sampleRender "one" oneFile, mkBlogPost sampleRender "two" twoFile] ↔
      hiddenFile.front.published ≠ some (JSValue.vBool false)) :=
  getAllPosts_published_iff sampleDate sampleRender sampleStore ["two", "one", "hidden"]
    "hidden" hiddenFile
    [mkBlogPost sampleRender "one" oneFile, mkBlogPost sampleRender "two" twoFile]
    rfl (by decide) rfl rfl rfl

/-- Witness for C4 at a file with no title: the error names the title field
and the load throws the validation message. -/
theorem validateFrontmatter_policy_witness :
    "Missing or invalid \x27title\x27 field" ∈ validationErrors sampleDate badFile.front ∧
    getPostBySlug sampleDate sampleRender badStore "bad" =
      Except.error (validationMessage "bad" (validationErrors sampleDate badFile.front)) :=
  (validateFrontmatter_policy sampleDate sampleRender badStore "bad" badFile rfl).1 rfl

/-- Witness for C5 at a store whose second post fails validation (and is
also marked published: false): the whole batch fails. -/
theorem getAllPosts_abort_on_error_witness :
    ∃ s2 e2, s2 ∈ ["two", "bad"] ∧
      getPostBySlug sampleDate sampleRender badStore s2 = Except.error e2 ∧
      getAllPosts sampleDate sampleRender badStore = Except.error e2 ∧
      getAllPostsMeta sampleDate sampleRender badStore = Except.error e2 :=
  getAllPosts_abort_on_error sampleDate sampleRender badStore ["two", "bad"] "bad"
    (validationMessage "bad" (validationErrors sampleDate badFile.front))
    rfl (by decide) rfl

/-- Witness for C6 at a slug absent from the sample store. -/
theorem getPostBySlug_absent_witness :
    getPostBySlug sampleDate sampleRender sampleStore "missing" = Except.ok none :=
  getPostBySlug_absent sampleDate sampleRender sampleStore "missing" (by decide)

/-- Witness for C7 at a store without a content directory. -/
theorem missing_dir_zero_posts_witness :
    getAllSlugs noDirStore = Except.ok [] ∧
    getAllPosts sampleDate sampleRender noDirStore = Except.ok [] ∧
    getAllPostsMeta sampleDate sampleRender noDirStore = Except.ok [] ∧
    missingDirWarning noDirStore = ["Blogs directory not found: " ++ blogsDirectory] :=
  missing_dir_zero_posts sampleDate sampleRender noDirStore rfl

/-- Witness for C8 at the sample store. -/
theorem getAllPostsMeta_projection_witness :
    getAllPostsMeta sampleDate sampleRender sampleStore =
      Except.ok ([mkBlogPost sampleRender "one" oneFile,
        mkBlogPost sampleRender "two" twoFile].map postToMeta) :=
  (getAllPostsMeta_projection sampleDate sampleRender sampleStore
    [mkBlogPost sampleRender "one" oneFile, mkBlogPost sampleRender "two" twoFile] rfl).1

/-- Witness for C9: two stores holding the same markdown body under
different names and frontmatter render to the same HTML. -/
theorem contentHtml_from_content_witness :
    (mkBlogPost sampleRender "two" twoFile).contentHtml =
      (mkBlogPost sampleRender "other" otherFile).contentHtml :=
  contentHtml_from_content sampleDate sampleDate sampleRender sampleStore altStore
    "two" "other" (mkBlogPost sampleRender "two" twoFile)
    (mkBlogPost sampleRender "other" otherFile) rfl rfl rfl

/-- Witness for C10 at a file whose title and date are empty strings. -/
theorem empty_title_fatal_witness :
    "Missing or invalid \x27title\x27 field" ∈
      validationErrors sampleDate emptyTitleFile.front ∧
    getPostBySlug sampleDate sampleRender emptyTitleStore "intro" =
      Except.error
        (validationMessage "intro" (validationErrors sampleDate emptyTitleFile.front)) ∧
    "Missing \x27date\x27 field" ∈ validationErrors sampleDate emptyTitleFile.front := by
  have h := empty_title_fatal sampleDate sampleRender emptyTitleStore "intro"
    emptyTitleFile rfl rfl
  exact ⟨h.1, h.2.1, h.2.2 rfl⟩
